import Mathlib

/-!
Verification of the Transfer State Notarization & Expiry Subsystem of the
five-bells-ledger repository, together with its account bootstrap seed.

The seed (`seedDb` and its two steps) is embedded directly from
`src/lib/seed-db.js`.  The notarization subsystem itself
(`transferExpiryMonitor`, the transfer-state controller and the receipt
builder) is present in the repository only through its test suite
(`test/transferStateSpec.js`), so those components are modelled from the
specification, as marked on each definition.
-/

namespace FiveBells

/-- An account record: `name` (unique key), `balance` (decimal string),
optional `password` credential and an `is_admin` flag (absent in the
JavaScript record is modelled as `false`). -/
structure Account where
  name : String
  balance : String
  password : Option String
  is_admin : Bool
deriving DecidableEq

/-- The `{user, pass}` parameter object taken by `setupAdminAccount`. -/
structure AdminParams where
  user : String
  pass : String
deriving DecidableEq

/-- The part of the configuration read by the seed: the optional
`default_admin` entry. -/
structure SeedConfig where
  default_admin : Option AdminParams
deriving DecidableEq

/-- The persisted account table, in insertion order.  `Account.findByName`
returns the first record with the given name. -/
abbrev AccountStore := List Account

/-- `models.Account.findByName(name)`: the first stored account with that
name, or none. -/
def findByName (name : String) (s : AccountStore) : Option Account :=
  List.find? (fun a => a.name == name) s

/-- `account.save()`: persist a modified record in place, replacing the
first stored account bearing the same name. -/
def saveAccount (s : AccountStore) (a : Account) : AccountStore :=
  match s with
  | [] => []
  | b :: rest =>
    if b.name == a.name then a :: rest else b :: saveAccount rest a

/-- `models.Account.create(fields)`: append a fresh record. -/
def createAccount (s : AccountStore) (a : Account) : AccountStore :=
  s ++ [a]

/-- The account created by `setupHoldAccount` when no `hold` account
exists: `{name: 'hold', balance: '0'}`. -/
def holdAccount : Account :=
  { name := "hold", balance := "0", password := none, is_admin := false }

/-- `setupHoldAccount` from `seed-db.js`: create the `hold` account with
balance `'0'` unless an account named `hold` already exists. -/
def setupHoldAccount (s : AccountStore) : AccountStore :=
  match findByName "hold" s with
  | some _ => s
  | none => createAccount s holdAccount

/-- `setupAdminAccount` from `seed-db.js`: if an account named
`adminParams.user` exists, update only its password; otherwise create a
fresh admin account with balance `'0'` and `is_admin: true`. -/
def setupAdminAccount (p : AdminParams) (s : AccountStore) : AccountStore :=
  match findByName p.user s with
  | some a => saveAccount s { a with password := some p.pass }
  | none =>
    createAccount s
      { name := p.user, balance := "0", password := some p.pass, is_admin := true }

/-- The exported seed generator from `seed-db.js`: run `setupHoldAccount`,
then `setupAdminAccount` when `config.default_admin` is set. -/
def seedDb (config : SeedConfig) (s : AccountStore) : AccountStore :=
  let s1 := setupHoldAccount s
  match config.default_admin with
  | some p => setupAdminAccount p s1
  | none => s1

/-! ## Transfer state notarization subsystem (modelled from the spec) -/

/-- The transfer lifecycle states: `proposed → prepared → executed`, or
`prepared → rejected`. -/
inductive TransferState where
  | proposed
  | prepared
  | executed
  | rejected
deriving DecidableEq

/-- The string form of a state as it appears in receipts. -/
def stateString : TransferState → String
  | .proposed => "proposed"
  | .prepared => "prepared"
  | .executed => "executed"
  | .rejected => "rejected"

/-- A debit: an amount, an account reference, and an optional
authorization artifact. -/
structure Debit where
  account : String
  amount : String
  authorization : Option String
deriving DecidableEq

/-- A credit: an amount and an account reference. -/
structure Credit where
  account : String
  amount : String
deriving DecidableEq

/-- Modelled from the spec: the Transfer record (`id`, ordered debits and
credits, `state`, optional `expires_at` deadline and the terminal
timestamps).  Timestamps are milliseconds since the epoch. -/
structure Transfer where
  id : String
  debits : List Debit
  credits : List Credit
  state : TransferState
  expires_at : Option Nat
  executed_at : Option Nat
  rejected_at : Option Nat
deriving DecidableEq

/-- The persisted transfer table.  `findTransfer` looks a record up by id. -/
abbrev TransferStore := List Transfer

/-- `get(id)` of the Transfer Store Adapter: first record with that id. -/
def findTransfer (store : TransferStore) (id : String) : Option Transfer :=
  List.find? (fun t => t.id == id) store

/-- Persist a modified transfer in place, replacing the first stored
record bearing the same id. -/
def saveTransfer (store : TransferStore) (t : Transfer) : TransferStore :=
  match store with
  | [] => []
  | u :: rest =>
    if u.id == t.id then t :: rest else u :: saveTransfer rest t

/-- The minimal signed payload: the `{id, state}` projection of a
transfer, with the state in its string form. -/
structure StateReceipt where
  id : String
  state : String
deriving DecidableEq

/-- Modelled from the spec: the Canonicalizer applied to a state receipt.
Mapping keys are sorted lexicographically (`id` before `state`) and each
string has a single textual form, so the output depends only on the two
field values. -/
def canonicalReceipt (r : StateReceipt) : String :=
  "\x7b\"id\":\"" ++ r.id ++ "\",\"state\":\"" ++ r.state ++ "\"\x7d"

/-- Modelled from the spec: `hashJSON` (the Canonicalizer followed by the
Hasher).  The digest is a fixed, salt-free, deterministic function of the
canonical bytes; its internal algorithm (SHA-512) is out of scope, so the
digest is modelled as the canonical form itself, which preserves exactly
the interface contract: equal canonical forms give equal digests. -/
def hashJSON (r : StateReceipt) : String :=
  canonicalReceipt r

/-- The configured ed25519 keypair (base64 strings in the source). -/
structure KeyPair where
  secret : String
  public : String
deriving DecidableEq

/-- The process-wide configuration the notarization subsystem reads: the
signing keypair and the ledger node base URI used as `signer`. -/
structure NotaryConfig where
  keys : KeyPair
  base_uri : String
deriving DecidableEq

/-- Modelled from the spec: the Signer.  `sign(digest)` is a pure function
of the digest and the secret key (ed25519 detached signing is
deterministic); the scheme internals are out of scope, so the signature is
modelled as an injective tagging of the (secret key, digest) pair. -/
def signDigest (secret : String) (digest : String) : String :=
  "ed25519(" ++ secret ++ ";" ++ digest ++ ")"

/-- Modelled from the spec: signature verification under the public key of
a keypair.  A signature verifies exactly when it equals the signature the
pair's secret key produces over the digest. -/
def verifySignature (kp : KeyPair) (digest : String) (sig : String) : Bool :=
  sig == signDigest kp.secret digest

/-- The externally visible receipt envelope
`{message, algorithm, signer, public_key, signature}`. -/
structure SignedEnvelope where
  message : StateReceipt
  algorithm : String
  signer : String
  public_key : String
  signature : String
deriving DecidableEq

/-- Modelled from the spec: the Receipt Builder.  Project `{id, state}`,
canonicalize and hash, sign the digest, and wrap the result with the
algorithm id `ed25519-sha512`, the configured base URI and public key. -/
def buildReceipt (cfg : NotaryConfig) (t : Transfer) : SignedEnvelope :=
  let m : StateReceipt := { id := t.id, state := stateString t.state }
  { message := m
    algorithm := "ed25519-sha512"
    signer := cfg.base_uri
    public_key := cfg.keys.public
    signature := signDigest cfg.keys.secret (hashJSON m) }

/-- The result of a state query: a 200 envelope or a 404 not-found. -/
inductive GetStateResult where
  | ok (env : SignedEnvelope)
  | notFound
deriving DecidableEq

/-- The HTTP status a query result is surfaced as. -/
def statusCode : GetStateResult → Nat
  | .ok _ => 200
  | .notFound => 404

/-- Modelled from the spec: the State Query Service
(`GET /transfers/:uuid/state`).  Look the transfer up; absent ids signal
not-found, present ids are delegated to the Receipt Builder with the
current persisted state. -/
def getState (cfg : NotaryConfig) (store : TransferStore) (id : String) :
    GetStateResult :=
  match findTransfer store id with
  | none => .notFound
  | some t => .ok (buildReceipt cfg t)

/-- The terminal timestamp field named by a conditional transition. -/
inductive TsField where
  | executed_at
  | rejected_at
deriving DecidableEq

/-- Set the named terminal timestamp field to the current time. -/
def setTsField (t : Transfer) (f : TsField) (now : Nat) : Transfer :=
  match f with
  | .executed_at => { t with executed_at := some now }
  | .rejected_at => { t with rejected_at := some now }

/-- The outcome of a conditional transition. -/
inductive TransitionResult where
  | success
  | conflict
deriving DecidableEq

/-- Modelled from the spec: the Transfer Store Adapter's atomic
`conditionalTransition(id, expectedState, newState, terminalTimestampField)`.
It succeeds, setting the new state and the terminal timestamp, only if the
stored state still equals `expectedState`; otherwise it reports `conflict`
without mutating the store. -/
def conditionalTransition (store : TransferStore) (id : String)
    (expected newState : TransferState) (f : TsField) (now : Nat) :
    TransitionResult × TransferStore :=
  match findTransfer store id with
  | none => (.conflict, store)
  | some t =>
    if t.state = expected then
      (.success, saveTransfer store (setTsField { t with state := newState } f now))
    else
      (.conflict, store)

/-- Modelled from the spec: the Expiry Monitor's per-transfer eligibility
predicate — state `prepared` or `proposed`, `expires_at` present and
passed, and not every debit carries an authorization.  A transfer with no
`expires_at` is never eligible. -/
def isExpiredEligible (now : Nat) (t : Transfer) : Bool :=
  (t.state == .prepared || t.state == .proposed)
    && (match t.expires_at with
        | some e => decide (e ≤ now)
        | none => false)
    && !(t.debits.all fun d => d.authorization.isSome)

/-- The update a sweep applies to one eligible transfer: the transition to
`rejected` with `rejected_at` stamped, exactly what a successful
`conditionalTransition(id, currentState, rejected, rejected_at)` commits. -/
def sweepOne (now : Nat) (t : Transfer) : Transfer :=
  if isExpiredEligible now t then
    { t with state := .rejected, rejected_at := some now }
  else t

/-- Modelled from the spec: `transferExpiryMonitor.processExpiredTransfers`
— one sweep pass over all transfers, attempting the conditional transition
to `rejected` on each eligible one and leaving every other record
untouched.  (In this sequential model, the conditional transition taken
with the state just read always succeeds, so the sweep is the pointwise
`sweepOne`.) -/
def processExpiredTransfers (now : Nat) (store : TransferStore) :
    TransferStore :=
  store.map (sweepOne now)

/-! ## Concrete sample data -/

/-- A sample notary configuration. -/
def cfgW : NotaryConfig :=
  { keys := { secret := "secret64", public := "public64" }
    base_uri := "http://ledger.example" }

/-- A prepared transfer with an expiry deadline at 100 and a debit lacking
authorization. -/
def tExpiring : Transfer :=
  { id := "t1"
    debits := [{ account := "alice", amount := "10", authorization := none }]
    credits := [{ account := "bob", amount := "10" }]
    state := .prepared
    expires_at := some 100
    executed_at := none
    rejected_at := none }

/-- An executed transfer. -/
def tExecuted : Transfer :=
  { id := "t2"
    debits := [{ account := "alice", amount := "10", authorization := some "ok" }]
    credits := [{ account := "bob", amount := "10" }]
    state := .executed
    expires_at := none
    executed_at := some 50
    rejected_at := none }

/-- A transfer agreeing with `tExecuted` on id and state but differing in
every other field. -/
def tExecutedAlt : Transfer :=
  { id := "t2"
    debits := []
    credits := []
    state := .executed
    expires_at := some 999
    executed_at := some 60
    rejected_at := none }

/-- The sample transfer store. -/
def storeW : TransferStore := [tExpiring, tExecuted]

/-- A sample non-admin account. -/
def aliceAcct : Account :=
  { name := "alice", balance := "5", password := none, is_admin := false }

/-- A configuration whose default admin user collides with `hold`. -/
def holdAdminCfg : SeedConfig :=
  { default_admin := some { user := "hold", pass := "newpass" } }

/-! ## Helper lemmas about the stores -/

theorem findByName_cons (n : String) (a : Account) (s : AccountStore) :
    findByName n (a :: s) = if a.name == n then some a else findByName n s := by
  cases h : a.name == n <;> simp [findByName, List.find?_cons, h]

theorem findByName_append_single (n : String) (s : AccountStore) (a : Account) :
    findByName n (s ++ [a]) =
      match findByName n s with
      | some b => some b
      | none => if a.name == n then some a else none := by
  induction s with
  | nil => cases h : a.name == n <;> simp [findByName, List.find?_cons, h]
  | cons b rest ih =>
    cases h : b.name == n <;>
      simp only [List.cons_append, findByName_cons, h, if_true, if_false,
        Bool.false_eq_true, ite_false, ite_true, ih]

theorem findByName_save_ne (n : String) (s : AccountStore) (b : Account)
    (h : (b.name == n) = false) :
    findByName n (saveAccount s b) = findByName n s := by
  induction s with
  | nil => rfl
  | cons u rest ih =>
    by_cases hu : u.name == b.name
    · have hun : (u.name == n) = false := by
        rcases beq_iff_eq.mp hu with h1
        rw [h1]; exact h
      simp [saveAccount, hu, findByName_cons, hun, h]
    · simp only [saveAccount, hu, if_false, Bool.false_eq_true, ite_false]
      rw [findByName_cons, findByName_cons, ih]

theorem findByName_save_self (s : AccountStore) (b : Account)
    (h : (findByName b.name s).isSome = true) :
    findByName b.name (saveAccount s b) = some b := by
  induction s with
  | nil => simp [findByName] at h
  | cons u rest ih =>
    by_cases hu : u.name == b.name
    · simp [saveAccount, hu, findByName_cons]
    · have hu2 : (u.name == b.name) = false := by simpa using hu
      simp only [saveAccount, hu2, Bool.false_eq_true, ite_false]
      rw [findByName_cons, hu2] at h
      simp only [Bool.false_eq_true, ite_false] at h
      rw [findByName_cons, hu2]
      simp only [Bool.false_eq_true, ite_false]
      exact ih h

theorem findByName_isSome_setupAdmin (n : String) (p : AdminParams)
    (s : AccountStore) (h : (findByName n s).isSome = true) :
    (findByName n (setupAdminAccount p s)).isSome = true := by
  cases hf : findByName p.user s with
  | some a =>
    have hrw : setupAdminAccount p s =
        saveAccount s { a with password := some p.pass } := by
      unfold setupAdminAccount; rw [hf]
    have hname : a.name = p.user := by simpa using List.find?_some hf
    rw [hrw]
    by_cases hn : p.user = n
    · subst hn
      have hsome :
          (findByName ({ a with password := some p.pass } : Account).name s).isSome =
            true := by
        show (findByName a.name s).isSome = true
        rw [hname, hf]; rfl
      have hsave2 :
          findByName a.name (saveAccount s { a with password := some p.pass }) =
            some { a with password := some p.pass } :=
        findByName_save_self s { a with password := some p.pass } hsome
      rw [← hname, hsave2]; rfl
    · have hne : (({ a with password := some p.pass } : Account).name == n) = false := by
        show (a.name == n) = false
        simp [hname, hn]
      rw [findByName_save_ne n s _ hne]
      exact h
  | none =>
    have hrw : setupAdminAccount p s =
        createAccount s
          { name := p.user, balance := "0", password := some p.pass,
            is_admin := true } := by
      unfold setupAdminAccount; rw [hf]
    rw [hrw, createAccount, findByName_append_single]
    cases hs : findByName n s with
    | some b => simp
    | none => rw [hs] at h; simp at h

theorem findTransfer_cons (id : String) (t : Transfer) (s : TransferStore) :
    findTransfer (t :: s) id = if t.id == id then some t else findTransfer s id := by
  cases h : t.id == id <;> simp [findTransfer, List.find?_cons, h]

theorem findTransfer_id_eq (store : TransferStore) (id : String) (t : Transfer)
    (h : findTransfer store id = some t) : t.id = id := by
  have := List.find?_some h
  simpa using this

theorem sweepOne_id (now : Nat) (t : Transfer) : (sweepOne now t).id = t.id := by
  unfold sweepOne; split <;> rfl

theorem setTsField_id (t : Transfer) (f : TsField) (now : Nat) :
    (setTsField t f now).id = t.id := by
  cases f <;> rfl

theorem setTsField_state (t : Transfer) (f : TsField) (now : Nat) :
    (setTsField t f now).state = t.state := by
  cases f <;> rfl

theorem findTransfer_sweep (now : Nat) (store : TransferStore) (id : String) :
    findTransfer (processExpiredTransfers now store) id =
      Option.map (sweepOne now) (findTransfer store id) := by
  induction store with
  | nil => rfl
  | cons u rest ih =>
    have hids : ((sweepOne now u).id == id) = (u.id == id) := by
      rw [sweepOne_id]
    cases h : u.id == id
    · simp [processExpiredTransfers, findTransfer_cons, hids, h] at ih ⊢
      simpa [processExpiredTransfers] using ih
    · simp [processExpiredTransfers, findTransfer_cons, hids, h]

theorem sweepOne_terminal (now : Nat) (t : Transfer)
    (h : t.state = .executed ∨ t.state = .rejected) : sweepOne now t = t := by
  have : isExpiredEligible now t = false := by
    rcases h with h | h <;> simp [isExpiredEligible, h]
  simp [sweepOne, this]

theorem sweepOne_idem (now : Nat) (t : Transfer) :
    sweepOne now (sweepOne now t) = sweepOne now t := by
  by_cases h : isExpiredEligible now t
  · have : sweepOne now t = { t with state := .rejected, rejected_at := some now } := by
      simp [sweepOne, h]
    rw [this]
    exact sweepOne_terminal now _ (Or.inr rfl)
  · have hf : isExpiredEligible now t = false := by simpa using h
    simp [sweepOne, hf]

theorem findTransfer_save_self (store : TransferStore) (id : String)
    (t u : Transfer) (hf : findTransfer store id = some t) (hu : u.id = id) :
    findTransfer (saveTransfer store u) id = some u := by
  induction store with
  | nil => simp [findTransfer] at hf
  | cons v rest ih =>
    rw [findTransfer_cons] at hf
    by_cases hv : v.id == id
    · have hvu : (v.id == u.id) = true := by rw [hu]; exact hv
      simp only [saveTransfer, hvu, if_true, ite_true]
      rw [findTransfer_cons]
      have : (u.id == id) = true := by simp [hu]
      simp [this]
    · have hv2 : (v.id == id) = false := by simpa using hv
      have hvu : (v.id == u.id) = false := by rw [hu]; exact hv2
      simp only [saveTransfer, hvu, Bool.false_eq_true, ite_false]
      rw [findTransfer_cons, hv2]
      simp only [Bool.false_eq_true, ite_false]
      rw [hv2] at hf
      simp only [Bool.false_eq_true, ite_false] at hf
      exact ih hf

theorem condTrans_success_eq (store : TransferStore) (id : String) (t : Transfer)
    (expected newState : TransferState) (f : TsField) (now : Nat)
    (hf : findTransfer store id = some t) (hs : t.state = expected) :
    conditionalTransition store id expected newState f now =
      (.success, saveTransfer store (setTsField { t with state := newState } f now)) := by
  unfold conditionalTransition
  rw [hf]
  simp [hs]

theorem condTrans_conflict_eq (store : TransferStore) (id : String) (t : Transfer)
    (expected newState : TransferState) (f : TsField) (now : Nat)
    (hf : findTransfer store id = some t) (hs : ¬ t.state = expected) :
    conditionalTransition store id expected newState f now = (.conflict, store) := by
  unfold conditionalTransition
  rw [hf]
  simp [hs]

theorem condTrans_notFound_eq (store : TransferStore) (id : String)
    (expected newState : TransferState) (f : TsField) (now : Nat)
    (hf : findTransfer store id = none) :
    conditionalTransition store id expected newState f now = (.conflict, store) := by
  unfold conditionalTransition
  rw [hf]

/-! ## The claims -/

/-- C3: for a fixed signing key, the digest signed for a transfer depends
only on its `(id, state)` pair: two transfers agreeing on id and state get
identical envelopes, and either signature verifies against the digest
recomputed from the canonical `{id, state}` receipt. -/
theorem receipt_deterministic (cfg : NotaryConfig) (t1 t2 : Transfer)
    (hid : t1.id = t2.id) (hst : t1.state = t2.state) :
    buildReceipt cfg t1 = buildReceipt cfg t2 ∧
    hashJSON { id := t1.id, state := stateString t1.state } =
      hashJSON { id := t2.id, state := stateString t2.state } ∧
    verifySignature cfg.keys
      (hashJSON { id := t1.id, state := stateString t1.state })
      (buildReceipt cfg t1).signature = true ∧
    verifySignature cfg.keys
      (hashJSON { id := t2.id, state := stateString t2.state })
      (buildReceipt cfg t2).signature = true := by
  refine ⟨?_, ?_, ?_, ?_⟩
  · simp [buildReceipt, hid, hst]
  · simp [hid, hst]
  · simp [buildReceipt, verifySignature]
  · simp [buildReceipt, verifySignature]

/-- C3 witness: two concrete transfers equal in id and state but differing
elsewhere produce equal envelopes and verifying signatures. -/
theorem receipt_deterministic_witness :
    buildReceipt cfgW tExecuted = buildReceipt cfgW tExecutedAlt ∧
    hashJSON { id := tExecuted.id, state := stateString tExecuted.state } =
      hashJSON { id := tExecutedAlt.id, state := stateString tExecutedAlt.state } ∧
    verifySignature cfgW.keys
      (hashJSON { id := tExecuted.id, state := stateString tExecuted.state })
      (buildReceipt cfgW tExecuted).signature = true ∧
    verifySignature cfgW.keys
      (hashJSON { id := tExecutedAlt.id, state := stateString tExecutedAlt.state })
      (buildReceipt cfgW tExecutedAlt).signature = true :=
  receipt_deterministic cfgW tExecuted tExecutedAlt rfl rfl

/-- C4: for a transfer present in the store, `getState` returns a 200
envelope built from the transfer's current persisted state: the signed
message is exactly `{id, state}` with the stored state (a transfer stored
as `prepared` yields `message.state = "prepared"`), and the envelope
carries the configured algorithm id, signer URI and public key. -/
theorem getState_found_spec (cfg : NotaryConfig) (store : TransferStore)
    (id : String) (t : Transfer) (h : findTransfer store id = some t) :
    getState cfg store id = .ok (buildReceipt cfg t) ∧
    statusCode (getState cfg store id) = 200 ∧
    (buildReceipt cfg t).message = { id := t.id, state := stateString t.state } ∧
    (buildReceipt cfg t).message.id = id ∧
    (buildReceipt cfg t).algorithm = "ed25519-sha512" ∧
    (buildReceipt cfg t).signer = cfg.base_uri ∧
    (buildReceipt cfg t).public_key = cfg.keys.public ∧
    (t.state = .prepared → (buildReceipt cfg t).message.state = "prepared") := by
  have ht : t.id = id := findTransfer_id_eq store id t h
  refine ⟨?_, ?_, rfl, ht, rfl, rfl, rfl, ?_⟩
  · simp [getState, h]
  · simp [getState, h, statusCode]
  · intro hs
    show stateString t.state = "prepared"
    rw [hs]
    rfl

/-- C4 witness: the concrete prepared transfer in the sample store. -/
theorem getState_found_witness :
    getState cfgW storeW "t1" = .ok (buildReceipt cfgW tExpiring) ∧
    statusCode (getState cfgW storeW "t1") = 200 ∧
    (buildReceipt cfgW tExpiring).message =
      { id := tExpiring.id, state := stateString tExpiring.state } ∧
    (buildReceipt cfgW tExpiring).message.id = "t1" ∧
    (buildReceipt cfgW tExpiring).algorithm = "ed25519-sha512" ∧
    (buildReceipt cfgW tExpiring).signer = cfgW.base_uri ∧
    (buildReceipt cfgW tExpiring).public_key = cfgW.keys.public ∧
    (tExpiring.state = .prepared →
      (buildReceipt cfgW tExpiring).message.state = "prepared") :=
  getState_found_spec cfgW storeW "t1" tExpiring rfl

/-- C5: a state query for an id absent from the store signals not-found,
surfaced as a 404 with no signed envelope. -/
theorem getState_notFound_spec (cfg : NotaryConfig) (store : TransferStore)
    (id : String) (h : findTransfer store id = none) :
    getState cfg store id = .notFound ∧
    statusCode (getState cfg store id) = 404 := by
  constructor <;> simp [getState, h, statusCode]

/-- C5 witness: an id outside the sample store gets a 404. -/
theorem getState_notFound_witness :
    getState cfgW storeW "absent-id" = .notFound ∧
    statusCode (getState cfgW storeW "absent-id") = 404 :=
  getState_notFound_spec cfgW storeW "absent-id" rfl

/-- C6: `conditionalTransition(id, expectedState, newState, field)`
succeeds and commits the new state (with the terminal timestamp stamped)
exactly when the stored state equals `expectedState`; on a state mismatch
or an absent id it reports `conflict` and returns the store completely
unchanged. -/
theorem conditionalTransition_spec (store : TransferStore) (id : String)
    (expected newState : TransferState) (f : TsField) (now : Nat) :
    (∀ t, findTransfer store id = some t → t.state = expected →
      (conditionalTransition store id expected newState f now).1 = .success ∧
      findTransfer (conditionalTransition store id expected newState f now).2 id =
        some (setTsField { t with state := newState } f now) ∧
      (setTsField { t with state := newState } f now).state = newState) ∧
    (∀ t, findTransfer store id = some t → ¬ t.state = expected →
      conditionalTransition store id expected newState f now = (.conflict, store)) ∧
    (findTransfer store id = none →
      conditionalTransition store id expected newState f now = (.conflict, store)) := by
  refine ⟨?_, ?_, ?_⟩
  · intro t hf hs
    have hrw := condTrans_success_eq store id t expected newState f now hf hs
    refine ⟨by rw [hrw], ?_, ?_⟩
    · rw [hrw]
      apply findTransfer_save_self store id t _ hf
      rw [setTsField_id]
      exact findTransfer_id_eq store id t hf
    · rw [setTsField_state]
  · intro t hf hs
    exact condTrans_conflict_eq store id t expected newState f now hf hs
  · intro hf
    exact condTrans_notFound_eq store id expected newState f now hf

/-- C6 witness: the conditional transition applied to the concrete
prepared transfer succeeds and commits `executed`. -/
theorem conditionalTransition_witness :
    (conditionalTransition storeW "t1" .prepared .executed .executed_at 42).1 =
      .success ∧
    findTransfer
        (conditionalTransition storeW "t1" .prepared .executed .executed_at 42).2
        "t1" =
      some (setTsField { tExpiring with state := .executed } .executed_at 42) ∧
    (setTsField { tExpiring with state := .executed } .executed_at 42).state =
      .executed :=
  (conditionalTransition_spec storeW "t1" .prepared .executed .executed_at 42).1
    tExpiring rfl rfl

/-- C1: a stored transfer with an expiry deadline already passed and a
debit lacking authorization is, after one sweep, reported by `getState`
as a 200 envelope whose message is `{id, state: "rejected"}` and whose
signature verifies under the configured keypair. -/
theorem expired_rejected_receipt (cfg : NotaryConfig) (store : TransferStore)
    (id : String) (t : Transfer) (now e : Nat)
    (hf : findTransfer store id = some t)
    (hstate : t.state = .prepared ∨ t.state = .proposed)
    (hexp : t.expires_at = some e) (hpast : e ≤ now)
    (hunauth : (t.debits.all fun d => d.authorization.isSome) = false) :
    ∃ env, getState cfg (processExpiredTransfers now store) id = .ok env ∧
      statusCode (getState cfg (processExpiredTransfers now store) id) = 200 ∧
      env.message = { id := id, state := "rejected" } ∧
      verifySignature cfg.keys (hashJSON env.message) env.signature = true := by
  have helig : isExpiredEligible now t = true := by
    rcases hstate with h | h <;> simp [isExpiredEligible, h, hexp, hpast, hunauth]
  have hsw : sweepOne now t = { t with state := .rejected, rejected_at := some now } := by
    simp [sweepOne, helig]
  have hfind : findTransfer (processExpiredTransfers now store) id =
      some { t with state := .rejected, rejected_at := some now } := by
    rw [findTransfer_sweep, hf, Option.map_some', hsw]
  have hid : t.id = id := findTransfer_id_eq store id t hf
  refine ⟨buildReceipt cfg { t with state := .rejected, rejected_at := some now },
    ?_, ?_, ?_, ?_⟩
  · simp [getState, hfind]
  · simp [getState, hfind, statusCode]
  · show ({ id := t.id, state := stateString .rejected } : StateReceipt) =
      { id := id, state := "rejected" }
    rw [hid]
    rfl
  · simp [buildReceipt, verifySignature]

/-- C1 witness: the sample expiring transfer, swept at its deadline. -/
theorem expired_rejected_receipt_witness :
    ∃ env, getState cfgW (processExpiredTransfers 100 storeW) "t1" = .ok env ∧
      statusCode (getState cfgW (processExpiredTransfers 100 storeW) "t1") = 200 ∧
      env.message = { id := "t1", state := "rejected" } ∧
      verifySignature cfgW.keys (hashJSON env.message) env.signature = true :=
  expired_rejected_receipt cfgW storeW "t1" tExpiring 100 100 rfl (Or.inl rfl)
    rfl (by decide) rfl

/-- Iterated sweeps never touch a stored transfer in a terminal state. -/
theorem findTransfer_foldl_sweeps (id : String) (t : Transfer)
    (hterm : t.state = .executed ∨ t.state = .rejected) :
    ∀ (times : List Nat) (store : TransferStore),
      findTransfer store id = some t →
      findTransfer (times.foldl (fun s n => processExpiredTransfers n s) store) id =
        some t := by
  intro times
  induction times with
  | nil => intro store h; simpa using h
  | cons n rest ih =>
    intro store h
    apply ih
    rw [findTransfer_sweep, h, Option.map_some', sweepOne_terminal n t hterm]

/-- C2: a transfer whose state is `executed` or `rejected` is immutable:
after any number of expiry sweeps, at any times, `getState` returns
exactly the envelope it returned before. -/
theorem terminal_state_immutable (cfg : NotaryConfig) (store : TransferStore)
    (id : String) (t : Transfer) (times : List Nat)
    (hf : findTransfer store id = some t)
    (hterm : t.state = .executed ∨ t.state = .rejected) :
    getState cfg (times.foldl (fun s n => processExpiredTransfers n s) store) id =
      getState cfg store id ∧
    getState cfg store id = .ok (buildReceipt cfg t) := by
  have h2 := findTransfer_foldl_sweeps id t hterm times store hf
  constructor
  · simp [getState, h2, hf]
  · simp [getState, hf]

/-- C2 witness: the sample executed transfer survives two sweeps. -/
theorem terminal_state_immutable_witness :
    getState cfgW
        (List.foldl (fun s n => processExpiredTransfers n s) storeW [100, 200])
        "t2" =
      getState cfgW storeW "t2" ∧
    getState cfgW storeW "t2" = .ok (buildReceipt cfgW tExecuted) :=
  terminal_state_immutable cfgW storeW "t2" tExecuted [100, 200] rfl (Or.inl rfl)

/-- C7: the expiry sweep is idempotent — re-running it changes nothing
(pointwise, a transfer already `rejected` is left identical by any later
sweep as well). -/
theorem sweep_idempotent (now later : Nat) (store : TransferStore) (id : String) :
    processExpiredTransfers now (processExpiredTransfers now store) =
      processExpiredTransfers now store ∧
    (∀ t, findTransfer (processExpiredTransfers now store) id = some t →
      t.state = .rejected →
      findTransfer
          (processExpiredTransfers later (processExpiredTransfers now store)) id =
        some t) := by
  constructor
  · induction store with
    | nil => rfl
    | cons u rest ih =>
      simp only [processExpiredTransfers, List.map_cons] at ih ⊢
      rw [sweepOne_idem, ih]
  · intro t hf ht
    rw [findTransfer_sweep, hf, Option.map_some',
      sweepOne_terminal later t (Or.inr ht)]

/-- C7 witness: a second sweep over the sample store is a no-op, and the
concrete rejected transfer is untouched by a later sweep. -/
theorem sweep_idempotent_witness :
    processExpiredTransfers 100 (processExpiredTransfers 100 storeW) =
      processExpiredTransfers 100 storeW ∧
    findTransfer (processExpiredTransfers 200 (processExpiredTransfers 100 storeW))
        "t1" =
      some { tExpiring with state := .rejected, rejected_at := some 100 } :=
  ⟨(sweep_idempotent 100 200 storeW "t1").1,
    (sweep_idempotent 100 200 storeW "t1").2
      { tExpiring with state := .rejected, rejected_at := some 100 } rfl rfl⟩

/-- The fulfillment path's atomic transition attempt on one transfer read
in state `prepared`: `conditionalTransition(id, prepared, executed,
executed_at)`. -/
def fulfillStep (now : Nat) (store : TransferStore) (id : String) :
    TransitionResult × TransferStore :=
  conditionalTransition store id .prepared .executed .executed_at now

/-- The expiry monitor's atomic transition attempt on one transfer read in
state `prepared`: `conditionalTransition(id, prepared, rejected,
rejected_at)`. -/
def rejectStep (now : Nat) (store : TransferStore) (id : String) :
    TransitionResult × TransferStore :=
  conditionalTransition store id .prepared .rejected .rejected_at now

/-- C8: when a fulfillment and an expiry rejection race on the same
prepared transfer, in either interleaving the first transition succeeds
and the second observes `conflict` and mutates nothing; the final state is
`executed` and not `rejected` in one order, `rejected` and not `executed`
in the other — never both. -/
theorem race_exclusive (store : TransferStore) (id : String) (t : Transfer)
    (n1 n2 : Nat) (hf : findTransfer store id = some t)
    (hprep : t.state = .prepared) :
    ((fulfillStep n1 store id).1 = .success ∧
     (rejectStep n2 (fulfillStep n1 store id).2 id).1 = .conflict ∧
     (rejectStep n2 (fulfillStep n1 store id).2 id).2 = (fulfillStep n1 store id).2 ∧
     (∃ u, findTransfer (rejectStep n2 (fulfillStep n1 store id).2 id).2 id = some u ∧
        u.state = .executed ∧ ¬ u.state = .rejected)) ∧
    ((rejectStep n2 store id).1 = .success ∧
     (fulfillStep n1 (rejectStep n2 store id).2 id).1 = .conflict ∧
     (fulfillStep n1 (rejectStep n2 store id).2 id).2 = (rejectStep n2 store id).2 ∧
     (∃ u, findTransfer (fulfillStep n1 (rejectStep n2 store id).2 id).2 id = some u ∧
        u.state = .rejected ∧ ¬ u.state = .executed)) := by
  have hid : t.id = id := findTransfer_id_eq store id t hf
  constructor
  · have h1 : fulfillStep n1 store id =
        (.success,
          saveTransfer store (setTsField { t with state := .executed } .executed_at n1)) :=
      condTrans_success_eq store id t .prepared .executed .executed_at n1 hf hprep
    have hfind1 : findTransfer (fulfillStep n1 store id).2 id =
        some (setTsField { t with state := .executed } .executed_at n1) := by
      rw [h1]
      exact findTransfer_save_self store id t _ hf (by rw [setTsField_id]; exact hid)
    have hst1 : (setTsField { t with state := .executed } .executed_at n1).state =
        TransferState.executed := by rw [setTsField_state]
    have h2 : rejectStep n2 (fulfillStep n1 store id).2 id =
        (.conflict, (fulfillStep n1 store id).2) :=
      condTrans_conflict_eq _ id _ .prepared .rejected .rejected_at n2 hfind1
        (by rw [hst1]; intro hc; cases hc)
    refine ⟨by rw [h1], by rw [h2], by rw [h2],
      setTsField { t with state := .executed } .executed_at n1, ?_, hst1, ?_⟩
    · rw [h2]
      exact hfind1
    · rw [hst1]
      intro hc
      cases hc
  · have h1 : rejectStep n2 store id =
        (.success,
          saveTransfer store (setTsField { t with state := .rejected } .rejected_at n2)) :=
      condTrans_success_eq store id t .prepared .rejected .rejected_at n2 hf hprep
    have hfind1 : findTransfer (rejectStep n2 store id).2 id =
        some (setTsField { t with state := .rejected } .rejected_at n2) := by
      rw [h1]
      exact findTransfer_save_self store id t _ hf (by rw [setTsField_id]; exact hid)
    have hst1 : (setTsField { t with state := .rejected } .rejected_at n2).state =
        TransferState.rejected := by rw [setTsField_state]
    have h2 : fulfillStep n1 (rejectStep n2 store id).2 id =
        (.conflict, (rejectStep n2 store id).2) :=
      condTrans_conflict_eq _ id _ .prepared .executed .executed_at n1 hfind1
        (by rw [hst1]; intro hc; cases hc)
    refine ⟨by rw [h1], by rw [h2], by rw [h2],
      setTsField { t with state := .rejected } .rejected_at n2, ?_, hst1, ?_⟩
    · rw [h2]
      exact hfind1
    · rw [hst1]
      intro hc
      cases hc

/-- C8 witness: both interleavings on the concrete prepared transfer. -/
theorem race_exclusive_witness :
    (fulfillStep 10 storeW "t1").1 = .success ∧
    (rejectStep 20 (fulfillStep 10 storeW "t1").2 "t1").1 = .conflict ∧
    (rejectStep 20 storeW "t1").1 = .success ∧
    (fulfillStep 10 (rejectStep 20 storeW "t1").2 "t1").1 = .conflict :=
  ⟨(race_exclusive storeW "t1" tExpiring 10 20 rfl rfl).1.1,
    (race_exclusive storeW "t1" tExpiring 10 20 rfl rfl).1.2.1,
    (race_exclusive storeW "t1" tExpiring 10 20 rfl rfl).2.1,
    (race_exclusive storeW "t1" tExpiring 10 20 rfl rfl).2.2.1⟩

/-! ## Seed lemmas -/

theorem setupHold_of_found (s : AccountStore) (a : Account)
    (h : findByName "hold" s = some a) : setupHoldAccount s = s := by
  unfold setupHoldAccount
  rw [h]

theorem setupHold_of_none (s : AccountStore)
    (h : findByName "hold" s = none) :
    setupHoldAccount s = s ++ [holdAccount] := by
  unfold setupHoldAccount
  rw [h]
  rfl

theorem findByName_hold_after_create (s : AccountStore)
    (h : findByName "hold" s = none) :
    findByName "hold" (s ++ [holdAccount]) = some holdAccount := by
  rw [findByName_append_single, h]
  rfl

theorem hold_after_setup (s : AccountStore) :
    (findByName "hold" (setupHoldAccount s)).isSome = true := by
  cases h : findByName "hold" s with
  | some a => rw [setupHold_of_found s a h, h]; rfl
  | none => rw [setupHold_of_none s h, findByName_hold_after_create s h]; rfl

theorem setupAdmin_of_found (p : AdminParams) (s : AccountStore) (a : Account)
    (h : findByName p.user s = some a) :
    setupAdminAccount p s = saveAccount s { a with password := some p.pass } := by
  unfold setupAdminAccount
  rw [h]

theorem setupAdmin_of_none (p : AdminParams) (s : AccountStore)
    (h : findByName p.user s = none) :
    setupAdminAccount p s =
      createAccount s
        { name := p.user, balance := "0", password := some p.pass,
          is_admin := true } := by
  unfold setupAdminAccount
  rw [h]

theorem findByName_setupAdmin_ne (n : String) (p : AdminParams)
    (s : AccountStore) (h : ¬ p.user = n) :
    findByName n (setupAdminAccount p s) = findByName n s := by
  cases hf : findByName p.user s with
  | some a =>
    have hname : a.name = p.user := by simpa using List.find?_some hf
    rw [setupAdmin_of_found p s a hf]
    apply findByName_save_ne
    show (a.name == n) = false
    simp [hname, h]
  | none =>
    rw [setupAdmin_of_none p s hf, createAccount, findByName_append_single]
    cases hs : findByName n s with
    | some b => simp
    | none => simp [h]

/-- Whether the configured default admin user name collides with `hold`. -/
def adminTargetsHold (c : SeedConfig) : Bool :=
  match c.default_admin with
  | some p => p.user == "hold"
  | none => false

/-- C9 counterexample: with a pre-existing `hold` account and
`default_admin` naming the user `hold`, the seed modifies the existing
`hold` account (its password changes), so `hold` is not left untouched. -/
theorem seed_hold_modified_counterexample :
    (findByName "hold" [holdAccount]).isSome = true ∧
    seedDb holdAdminCfg [holdAccount] ≠ [holdAccount] ∧
    findByName "hold" (seedDb holdAdminCfg [holdAccount]) =
      some { holdAccount with password := some "newpass" } := by
  refine ⟨rfl, ?_, rfl⟩
  intro h
  have h2 := congrArg (fun l => findByName "hold" l) h
  simp only [] at h2
  have h3 : some ({ holdAccount with password := some "newpass" } : Account) =
      some holdAccount := h2
  cases h3

/-- C9 (amended): after the seed runs, an account named `hold` exists; if
none existed before, the `hold` account afterwards has balance `'0'`; and
a pre-existing `hold` account is left untouched whenever `default_admin`
is unset or names a user other than `hold` (when it names `hold`, only the
password is updated, as the counterexample shows). -/
theorem seed_hold_spec (c : SeedConfig) (s : AccountStore) :
    (findByName "hold" (seedDb c s)).isSome = true ∧
    (findByName "hold" s = none →
      ∃ a, findByName "hold" (seedDb c s) = some a ∧
        a.name = "hold" ∧ a.balance = "0") ∧
    (∀ a, findByName "hold" s = some a → adminTargetsHold c = false →
      findByName "hold" (seedDb c s) = some a) := by
  refine ⟨?_, ?_, ?_⟩
  · cases hc : c.default_admin with
    | none =>
      show (findByName "hold" (seedDb c s)).isSome = true
      unfold seedDb
      rw [hc]
      exact hold_after_setup s
    | some p =>
      have : seedDb c s = setupAdminAccount p (setupHoldAccount s) := by
        unfold seedDb; rw [hc]
      rw [this]
      exact findByName_isSome_setupAdmin "hold" p _ (hold_after_setup s)
  · intro hnone
    have hsetup : setupHoldAccount s = s ++ [holdAccount] := setupHold_of_none s hnone
    have hfind : findByName "hold" (setupHoldAccount s) = some holdAccount := by
      rw [hsetup]
      exact findByName_hold_after_create s hnone
    cases hc : c.default_admin with
    | none =>
      refine ⟨holdAccount, ?_, rfl, rfl⟩
      unfold seedDb
      rw [hc]
      exact hfind
    | some p =>
      have hseed : seedDb c s = setupAdminAccount p (setupHoldAccount s) := by
        unfold seedDb; rw [hc]
      by_cases hu : p.user = "hold"
      · have hfindu : findByName p.user (setupHoldAccount s) = some holdAccount := by
          rw [hu]; exact hfind
        refine ⟨{ holdAccount with password := some p.pass }, ?_, rfl, rfl⟩
        rw [hseed, setupAdmin_of_found p _ holdAccount hfindu]
        have hsave :
            findByName ({ holdAccount with password := some p.pass } : Account).name
                (saveAccount (setupHoldAccount s)
                  { holdAccount with password := some p.pass }) =
              some { holdAccount with password := some p.pass } := by
          apply findByName_save_self
          show (findByName "hold" (setupHoldAccount s)).isSome = true
          rw [hfind]; rfl
        exact hsave
      · refine ⟨holdAccount, ?_, rfl, rfl⟩
        rw [hseed, findByName_setupAdmin_ne "hold" p _ hu]
        exact hfind
  · intro a hfound hnotHold
    have hsetup : setupHoldAccount s = s := setupHold_of_found s a hfound
    cases hc : c.default_admin with
    | none =>
      unfold seedDb
      rw [hc, hsetup]
      exact hfound
    | some p =>
      have hseed : seedDb c s = setupAdminAccount p s := by
        unfold seedDb; rw [hc, hsetup]
      have hbeq : (p.user == "hold") = false := by
        simpa [adminTargetsHold, hc] using hnotHold
      have hu : ¬ p.user = "hold" := by
        intro hu
        rw [hu] at hbeq
        simp at hbeq
      rw [hseed, findByName_setupAdmin_ne "hold" p s hu]
      exact hfound

/-- C9 witness: a store already holding `hold` and an unrelated admin
user; the `hold` account is returned unchanged. -/
theorem seed_hold_spec_witness :
    findByName "hold"
        (seedDb { default_admin := some { user := "root", pass := "pw" } }
          [aliceAcct, holdAccount]) =
      some holdAccount :=
  (seed_hold_spec { default_admin := some { user := "root", pass := "pw" } }
      [aliceAcct, holdAccount]).2.2 holdAccount rfl rfl

/-- C10 counterexample: `default_admin` set to user `hold` over an empty
store.  No account named `hold` exists beforehand, yet the seed creates no
admin account at all: every account after the run has `is_admin = false`
(the hold account is created non-admin and only its password is set). -/
theorem seed_admin_not_granted_counterexample :
    holdAdminCfg.default_admin = some { user := "hold", pass := "newpass" } ∧
    findByName "hold" ([] : AccountStore) = none ∧
    (findByName "hold" (seedDb holdAdminCfg [])).isSome = true ∧
    ((seedDb holdAdminCfg []).all fun a => a.is_admin == false) = true := by
  exact ⟨rfl, rfl, rfl, rfl⟩

/-- C10 (amended): with `default_admin = {user, pass}` set, if an account
with that user name exists at the time the admin step runs (that is, after
the `hold` account is ensured), the seed replaces it with a copy whose
password alone is changed — name, balance and `is_admin` are untouched;
only if no such account exists at that point is a fresh one created with
balance `'0'` and `is_admin` true.  With `default_admin` unset, no account
other than `hold` is touched. -/
theorem seed_admin_spec (p : AdminParams) (s : AccountStore) :
    (∀ a, findByName p.user (setupHoldAccount s) = some a →
      seedDb { default_admin := some p } s =
        saveAccount (setupHoldAccount s) { a with password := some p.pass } ∧
      ({ a with password := some p.pass } : Account).name = a.name ∧
      ({ a with password := some p.pass } : Account).balance = a.balance ∧
      ({ a with password := some p.pass } : Account).is_admin = a.is_admin) ∧
    (findByName p.user (setupHoldAccount s) = none →
      seedDb { default_admin := some p } s =
        createAccount (setupHoldAccount s)
          { name := p.user, balance := "0", password := some p.pass,
            is_admin := true }) ∧
    (∀ n, ¬ n = "hold" →
      findByName n (seedDb { default_admin := none } s) = findByName n s) := by
  refine ⟨?_, ?_, ?_⟩
  · intro a hfound
    refine ⟨?_, rfl, rfl, rfl⟩
    show setupAdminAccount p (setupHoldAccount s) =
      saveAccount (setupHoldAccount s) { a with password := some p.pass }
    exact setupAdmin_of_found p _ a hfound
  · intro hnone
    show setupAdminAccount p (setupHoldAccount s) =
      createAccount (setupHoldAccount s)
        { name := p.user, balance := "0", password := some p.pass,
          is_admin := true }
    exact setupAdmin_of_none p _ hnone
  · intro n hn
    show findByName n (setupHoldAccount s) = findByName n s
    cases hf : findByName "hold" s with
    | some a => rw [setupHold_of_found s a hf]
    | none =>
      rw [setupHold_of_none s hf, findByName_append_single]
      cases hs : findByName n s with
      | some b => simp
      | none =>
        have : (holdAccount.name == n) = false := by
          simp only [holdAccount]
          rw [beq_eq_false_iff_ne]
          exact fun h2 => hn h2.symm
        rw [this]
        rfl

/-- C10 witness: an existing non-admin account named like the configured
admin user gets only its password updated. -/
theorem seed_admin_spec_witness :
    seedDb { default_admin := some { user := "alice", pass := "pw2" } }
        [aliceAcct, holdAccount] =
      saveAccount (setupHoldAccount [aliceAcct, holdAccount])
        { aliceAcct with password := some "pw2" } ∧
    ({ aliceAcct with password := some "pw2" } : Account).name = aliceAcct.name ∧
    ({ aliceAcct with password := some "pw2" } : Account).balance =
      aliceAcct.balance ∧
    ({ aliceAcct with password := some "pw2" } : Account).is_admin =
      aliceAcct.is_admin :=
  (seed_admin_spec { user := "alice", pass := "pw2" }
      [aliceAcct, holdAccount]).1 aliceAcct rfl

end FiveBells
